import Mathlib

/-!
Shallow embedding of the kugelblitz translator
(src/kugelblitz/translator/init module). Each Python handler function
becomes a Lean definition of the same name; the open dispatch table is
closed into the inductive type Node. Recursion through the dispatcher is
expressed by passing the recursive translator as a parameter tr, tied by
a fuel-indexed top-level function translate; fuel is an artifact of the
embedding and every claim is stated at sufficient fuel.

Python exceptions are modelled by the Err type and results by Except:
CompileError is the class raised explicitly by the code, AssertionError
models plain assert statements, KeyError models a dispatch-table miss
(ast.Pow is absent from the table), IndexError models out-of-range list
subscripts, and OutOfFuel is the embedding artifact.
-/

namespace Kugelblitz

/-- Errors that abort a translation. -/
inductive Err where
  | CompileError (msg : String)
  | AssertionError (msg : String)
  | KeyError
  | IndexError
  | OutOfFuel
  deriving DecidableEq, Repr

/-- Boolean operator leaf kinds (ast.And, ast.Or). -/
inductive BoolOpKind where
  | And | Or
  deriving DecidableEq, Repr

/-- Binary operator leaf kinds. -/
inductive BinOpKind where
  | Add | Sub | Mult | Div | Mod | Pow
  | LShift | RShift | BitOr | BitXor | BitAnd | FloorDiv
  deriving DecidableEq, Repr

/-- Unary operator leaf kinds. -/
inductive UnaryOpKind where
  | Invert | Not | UAdd | USub
  deriving DecidableEq, Repr

/-- Comparison operator leaf kinds. -/
inductive CmpOpKind where
  | Eq | Lt | LtE | Gt | GtE
  deriving DecidableEq, Repr

/-- Syntax-tree nodes, mirroring the ast node classes the dispatch table
handles. Function arguments are modelled by their identifier strings
(the code only ever reads arg.id). Numeric literals carry the parsed
numeric value, as ast.Num does. -/
inductive Node where
  | Module (body : List Node)
  | FunctionDef (name : String) (args : List String) (body : List Node)
  | Return (value : Node)
  | Name (id : String)
  | ClassDef (name : String) (body : List Node)
  | Assign (targets : List Node) (value : Node)
  | Attribute (value : Node) (attr : String)
  | Num (n : Int)
  | Tuple (elts : List Node)
  | BoolOp (op : BoolOpKind) (values : List Node)
  | BinOp (left : Node) (op : BinOpKind) (right : Node)
  | Compare (left : Node) (ops : List CmpOpKind) (comparators : List Node)
  | UnaryOp (op : UnaryOpKind) (operand : Node)
  | Lambda (args : List String) (body : Node)
  | Call (func : Node) (args : List Node)
  | If (test : Node) (body : List Node) (orelse : List Node)
  | IfExp (test : Node) (body : Node) (orelse : Node)
  | Expr (value : Node)

/-- Dispatch-table entry for ast.And and ast.Or. -/
def bool_op_sym : BoolOpKind → String
  | .And => "&&"
  | .Or => "||"

/-- Dispatch-table entries for the arithmetic and bitwise operator
leaves. ast.Pow has no entry in the table, so dispatching on it raises
KeyError; it is instead intercepted inside translate_bin_op. -/
def bin_op_sym : BinOpKind → Except Err String
  | .Add => .ok "+"
  | .Sub => .ok "-"
  | .Mult => .ok "*"
  | .Div => .ok "/"
  | .Mod => .ok "%"
  | .Pow => .error .KeyError
  | .LShift => .ok "<<"
  | .RShift => .ok ">>"
  | .BitOr => .ok "|"
  | .BitXor => .ok "^"
  | .BitAnd => .ok "&"
  | .FloorDiv => .ok "/"

/-- Dispatch-table entries for the unary operator leaves. -/
def unary_op_sym : UnaryOpKind → String
  | .Invert => "~"
  | .Not => "!"
  | .UAdd => "+"
  | .USub => "-"

/-- Dispatch-table entries for the comparison operator leaves. -/
def cmp_op_sym : CmpOpKind → String
  | .Eq => "=="
  | .Lt => "<"
  | .LtE => "<="
  | .Gt => ">"
  | .GtE => ">="

/-- translate_name from the source: the identifier self becomes this,
every other identifier is emitted verbatim. -/
def translate_name (id : String) : String :=
  if id = "self" then "this" else id

/-- translate_num from the source: str(node.n). -/
def translate_num (n : Int) : String :=
  toString n

/-- translate_tuple from the source: a fixed placeholder. -/
def translate_tuple : String :=
  "?tuple?"

/-- Test used by translate_body: isinstance(node, (ast.If,)). -/
def isIfNode : Node → Bool
  | .If _ _ _ => true
  | _ => false

/-- Statement pieces of translate_body: each non-If statement gets a
trailing semicolon, If statements are emitted as-is. -/
def bodyStatements (tr : Node → Except Err String) : List Node → Except Err (List String)
  | [] => pure []
  | node :: rest => do
    let piece ←
      if isIfNode node then tr node
      else do
        let t ← tr node
        pure (t ++ ";")
    let others ← bodyStatements tr rest
    pure (piece :: others)

/-- translate_body from the source. The line_separator parameter is
present in the source signature but never read: the join always uses a
single newline. -/
def translate_body (tr : Node → Except Err String) (body : List Node)
    (line_separator : String) : Except Err String := do
  let s ← bodyStatements tr body
  pure (String.intercalate "\n" s)

/-- translate_module from the source: translate_body with a blank-line
separator argument (which translate_body ignores). -/
def translate_module (tr : Node → Except Err String) (body : List Node) :
    Except Err String :=
  translate_body tr body "\n\n"

/-- translate_function from the source. In instance-method mode the
first formal parameter is dropped and no name is bound; otherwise all
parameters are kept and the function is bound to its name. -/
def translate_function (tr : Node → Except Err String) (name : String)
    (args : List String) (body : List Node) (instance_method : Bool) :
    Except Err String :=
  if instance_method then do
    let args_def := String.intercalate ", " args.tail
    let body_def ← translate_body tr body "\n"
    pure ("function (" ++ args_def ++ ") \x7b " ++ body_def ++ " \x7d")
  else do
    let args_def := String.intercalate ", " args
    let body_def ← translate_body tr body "\n"
    pure ("var " ++ name ++ " = function (" ++ args_def ++ ") \x7b " ++
      body_def ++ " \x7d")

/-- translate_return from the source. -/
def translate_return (tr : Node → Except Err String) (value : Node) :
    Except Err String := do
  let v ← tr value
  pure ("return " ++ v)

/-- translate_lambda from the source: the single-expression body is
wrapped as a one-statement body and prefixed with return. -/
def translate_lambda (tr : Node → Except Err String) (args : List String)
    (body : Node) : Except Err String := do
  let body_def ← translate_body tr [body] "\n"
  pure ("function(" ++ String.intercalate ", " args ++ ") \x7b\nreturn " ++
    body_def ++ "\n\x7d")

/-- translate_if from the source: the else block is appended only when
orelse is non-empty. -/
def translate_if (tr : Node → Except Err String) (test : Node)
    (body : List Node) (orelse : List Node) : Except Err String := do
  let test_def ← tr test
  let body_def ← translate_body tr body "\n"
  let first := "if (" ++ test_def ++ ") \x7b " ++ body_def ++ " \x7d"
  if orelse.isEmpty then
    pure first
  else do
    let orelse_def ← translate_body tr orelse "\n"
    pure (first ++ "\nelse \x7b " ++ orelse_def ++ " \x7d")

/-- translate_if_exp from the source: the ternary form. -/
def translate_if_exp (tr : Node → Except Err String) (test : Node)
    (body : Node) (orelse : Node) : Except Err String := do
  let t ← tr test
  let b ← tr body
  let o ← tr orelse
  pure (t ++ " ? " ++ b ++ " : " ++ o)

/-- translate_bool_op from the source: only values[0] and values[1] are
read; values[0] is translated before values[1] is subscripted, matching
the evaluation order of the format dict. -/
def translate_bool_op (tr : Node → Except Err String) (op : BoolOpKind)
    (values : List Node) : Except Err String :=
  match values with
  | [] => .error .IndexError
  | v0 :: rest => do
    let left ← tr v0
    match rest with
    | [] => .error .IndexError
    | v1 :: _ => do
      let right ← tr v1
      pure ("(" ++ left ++ " " ++ bool_op_sym op ++ " " ++ right ++ ")")

/-- translate_bin_op from the source: ast.Pow is intercepted and emits a
Math.pow call; every other operator goes through the dispatch table. -/
def translate_bin_op (tr : Node → Except Err String) (left : Node)
    (op : BinOpKind) (right : Node) : Except Err String :=
  match op with
  | .Pow => do
    let a ← tr left
    let b ← tr right
    pure ("Math.pow(" ++ a ++ ", " ++ b ++ ")")
  | _ => do
    let a ← tr left
    let opS ← bin_op_sym op
    let b ← tr right
    pure ("(" ++ a ++ " " ++ opS ++ " " ++ b ++ ")")

/-- translate_unary_op from the source: operator symbol concatenated
with the translated operand. -/
def translate_unary_op (tr : Node → Except Err String) (op : UnaryOpKind)
    (operand : Node) : Except Err String := do
  let v ← tr operand
  pure (unary_op_sym op ++ v)

/-- translate_attribute from the source. -/
def translate_attribute (tr : Node → Except Err String) (value : Node)
    (attr : String) : Except Err String := do
  let left ← tr value
  pure (left ++ "." ++ attr)

/-- Argument list of translate_call: map(translate, node.args). -/
def translateList (tr : Node → Except Err String) : List Node → Except Err (List String)
  | [] => pure []
  | x :: xs => do
    let t ← tr x
    let ts ← translateList tr xs
    pure (t :: ts)

/-- translate_call from the source: the arguments are translated before
the callee, matching the order of the source statements. -/
def translate_call (tr : Node → Except Err String) (func : Node)
    (args : List Node) : Except Err String := do
  let argTexts ← translateList tr args
  let f ← tr func
  pure (f ++ "(" ++ String.intercalate ", " argTexts ++ ")")

/-- translate_compare from the source: both asserts demand exactly one
operator and one comparator, with the same message. -/
def translate_compare (tr : Node → Except Err String) (left : Node)
    (ops : List CmpOpKind) (comparators : List Node) : Except Err String :=
  match ops, comparators with
  | [op], [comp] => do
    let l ← tr left
    let c ← tr comp
    pure ("(" ++ l ++ " " ++ cmp_op_sym op ++ " " ++ c ++ ")")
  | _, _ => .error (.AssertionError "Cannot have multiple comparison")

/-- Pairwise statements of a tuple-to-tuple assignment: zip semantics,
value element translated before target element, as in the source format
dict. -/
def tupleAssignStatements (tr : Node → Except Err String) :
    List Node → List Node → Except Err (List String)
  | t :: ts, v :: vs => do
    let vS ← tr v
    let tS ← tr t
    let others ← tupleAssignStatements tr ts vs
    pure ((tS ++ " = " ++ vS) :: others)
  | _, _ => pure []

/-- Statement list of translate_assign: one pass over the targets,
accumulating statements, with the tuple checks of the source. -/
def assignStatements (tr : Node → Except Err String) :
    List Node → Node → Except Err (List String)
  | [], _ => pure []
  | target :: rest, value => do
    let stmts ←
      match target with
      | .Tuple elts =>
        match value with
        | .Tuple velts =>
          if elts.length ≠ velts.length then
            .error (.CompileError "Assigning one tuple to another of different length.")
          else
            tupleAssignStatements tr elts velts
        | _ => .error (.CompileError "Assigning a non-tuple to a tuple.")
      | _ => do
        let v ← tr value
        let t ← tr target
        pure [t ++ " = " ++ v]
    let others ← assignStatements tr rest value
    pure (stmts ++ others)

/-- translate_assign from the source: statements joined by a semicolon
and newline. -/
def translate_assign (tr : Node → Except Err String) (targets : List Node)
    (value : Node) : Except Err String := do
  let statements ← assignStatements tr targets value
  pure (String.intercalate ";\n" statements)

/-- translate_call helper for dictionaries in translate_class: insert or
replace, keeping the original insertion position of an existing key, as
a Python dict does. -/
def upsert {α : Type} (k : String) (v : α) : List (String × α) → List (String × α)
  | [] => [(k, v)]
  | (k2, v2) :: rest =>
    if k2 = k then (k, v) :: rest else (k2, v2) :: upsert k v rest

/-- The collection loop of translate_class: FunctionDef members go into
the functions dict keyed by name (storing their args and body), Assign
members go into the assigns dict after the two asserts, everything else
is ignored. -/
def collectClass (acc_f : List (String × (List String × List Node)))
    (acc_a : List (String × Node)) :
    List Node → Except Err (List (String × (List String × List Node)) × List (String × Node))
  | [] => pure (acc_f, acc_a)
  | item :: rest =>
    match item with
    | .FunctionDef fname fargs fbody =>
      collectClass (upsert fname (fargs, fbody) acc_f) acc_a rest
    | .Assign targets value =>
      match targets with
      | [t] =>
        match t with
        | .Name id => collectClass acc_f (upsert id value acc_a) rest
        | _ => .error (.AssertionError "You can only assign to simple names in classes")
      | _ => .error (.AssertionError "You can only assign to a single item.")
    | _ => collectClass acc_f acc_a rest

/-- Lexicographic order on character lists by code point: the string
order Python uses when sorting the member names. -/
def lexLe : List Char → List Char → Bool
  | [], _ => true
  | _ :: _, [] => false
  | a :: as, b :: bs =>
    if a.toNat < b.toNat then true
    else if b.toNat < a.toNat then false
    else lexLe as bs

/-- Code-point lexicographic order on strings. -/
def strLe (s t : String) : Bool :=
  lexLe s.toList t.toList

/-- Ordering used by sorted(dict.items()) in translate_class: since dict
keys are unique, the tuple comparison never reaches the second
component, so the order is exactly the code-point lexicographic order
of the keys, as in Python. -/
def itemLe {α : Type} (p q : String × α) : Prop :=
  strLe p.1 q.1 = true

instance {α : Type} : DecidableRel (fun (p q : String × α) => itemLe p q) :=
  fun p q => inferInstanceAs (Decidable (strLe p.1 q.1 = true))

/-- sorted(dict.items()) of translate_class: a stable ascending sort of
the entry list by key. -/
def sortItems {α : Type} (l : List (String × α)) : List (String × α) :=
  List.insertionSort (fun p q => itemLe p q) l

/-- The assign-entry loop of translate_class. -/
def classAssignEntries (tr : Node → Except Err String) :
    List (String × Node) → Except Err (List String)
  | [] => pure []
  | (aname, anode) :: rest => do
    let v ← tr anode
    let others ← classAssignEntries tr rest
    pure (("\x27" ++ aname ++ "\x27: " ++ v) :: others)

/-- The method-entry loop of translate_class: every function member
except the initializer becomes an entry, translated in instance-method
mode. -/
def classFuncEntries (tr : Node → Except Err String) :
    List (String × (List String × List Node)) → Except Err (List String)
  | [] => pure []
  | (fname, fdef) :: rest =>
    if fname = "__init__" then
      classFuncEntries tr rest
    else do
      let v ← translate_function tr fname fdef.1 fdef.2 true
      let others ← classFuncEntries tr rest
      pure (("\x27" ++ fname ++ "\x27: " ++ v) :: others)

/-- translate_class from the source: collect members, build the
constructor from the initializer (or the empty function), then emit the
sorted assign entries followed by the sorted non-initializer function
entries. -/
def translate_class (tr : Node → Except Err String) (name : String)
    (cbody : List Node) : Except Err String := do
  let fa ← collectClass [] [] cbody
  let functions := fa.1
  let assigns := fa.2
  let init_def ←
    match List.lookup "__init__" functions with
    | some fdef => translate_function tr "__init__" fdef.1 fdef.2 true
    | none => pure "function () \x7b\x7d"
  let aEntries ← classAssignEntries tr (sortItems assigns)
  let fEntries ← classFuncEntries tr (sortItems functions)
  pure ("var " ++ name ++ " = " ++ init_def ++ ";\n" ++ name ++
    ".prototype = \x7b " ++ String.intercalate ",\n" (aEntries ++ fEntries) ++
    " \x7d")

/-- The dispatch table of translate: route a node to the handler for its
kind, with the recursive translator passed through. -/
def translateAux (tr : Node → Except Err String) : Node → Except Err String
  | .Module body => translate_module tr body
  | .FunctionDef name args body => translate_function tr name args body false
  | .Return value => translate_return tr value
  | .Name id => pure (translate_name id)
  | .ClassDef name cbody => translate_class tr name cbody
  | .Assign targets value => translate_assign tr targets value
  | .Attribute value attr => translate_attribute tr value attr
  | .Num n => pure (translate_num n)
  | .Tuple _ => pure translate_tuple
  | .BoolOp op values => translate_bool_op tr op values
  | .BinOp left op right => translate_bin_op tr left op right
  | .Compare left ops comparators => translate_compare tr left ops comparators
  | .UnaryOp op operand => translate_unary_op tr op operand
  | .Lambda args body => translate_lambda tr args body
  | .Call func args => translate_call tr func args
  | .If test body orelse => translate_if tr test body orelse
  | .IfExp test body orelse => translate_if_exp tr test body orelse
  | .Expr value => tr value

/-- translate from the source, with fuel bounding the recursion depth:
at each tree level one unit of fuel is consumed and the handlers
recurse through the remaining fuel. -/
def translate : Nat → Node → Except Err String
  | 0, _ => .error .OutOfFuel
  | fuel + 1, node => translateAux (translate fuel) node

/-- Reduction of bind on a successful result. -/
theorem ok_bind {α β : Type} (a : α) (f : α → Except Err β) :
    (Except.ok a >>= f) = f a := rfl

/-- Reduction of pure to a successful result. -/
theorem pure_eq_ok {α : Type} (a : α) : (pure a : Except Err α) = Except.ok a := rfl

/-- Reduction of bind on an error result. -/
theorem error_bind {α β : Type} (e : Err) (f : α → Except Err β) :
    ((Except.error e : Except Err α) >>= f) = Except.error e := rfl

/-- One unfolding step of the fueled translator. -/
theorem translate_succ (fuel : Nat) (node : Node) :
    translate (fuel + 1) node = translateAux (translate fuel) node := rfl

/-- Characterization of lexLe on two non-empty lists. -/
theorem lexLe_cons (a b : Char) (as bs : List Char) :
    lexLe (a :: as) (b :: bs) = true ↔
      a.toNat < b.toNat ∨ (a.toNat = b.toNat ∧ lexLe as bs = true) := by
  simp only [lexLe]
  by_cases h1 : a.toNat < b.toNat
  · simp [h1]
  · by_cases h2 : b.toNat < a.toNat
    · simp [h1, h2]
      omega
    · have h3 : a.toNat = b.toNat := by omega
      simp [h1, h2, h3]

/-- The lexicographic order is total. -/
theorem lexLe_total : ∀ as bs : List Char, lexLe as bs = true ∨ lexLe bs as = true := by
  intro as
  induction as with
  | nil => intro bs; left; rfl
  | cons a as ih =>
    intro bs
    cases bs with
    | nil => right; rfl
    | cons b bs =>
      rw [lexLe_cons, lexLe_cons]
      rcases Nat.lt_trichotomy a.toNat b.toNat with h | h | h
      · left; exact Or.inl h
      · rcases ih bs with hr | hr
        · left; exact Or.inr ⟨h, hr⟩
        · right; exact Or.inr ⟨h.symm, hr⟩
      · right; exact Or.inl h

/-- The lexicographic order is transitive. -/
theorem lexLe_trans : ∀ as bs cs : List Char,
    lexLe as bs = true → lexLe bs cs = true → lexLe as cs = true := by
  intro as
  induction as with
  | nil => intro bs cs _ _; rfl
  | cons a as ih =>
    intro bs cs hab hbc
    cases bs with
    | nil => exact absurd hab (by simp [lexLe])
    | cons b bs =>
      cases cs with
      | nil => exact absurd hbc (by simp [lexLe])
      | cons c cs =>
        rw [lexLe_cons] at hab hbc ⊢
        rcases hab with h1 | ⟨h1, hab⟩ <;> rcases hbc with h2 | ⟨h2, hbc⟩
        · exact Or.inl (by omega)
        · exact Or.inl (by omega)
        · exact Or.inl (by omega)
        · exact Or.inr ⟨by omega, ih bs cs hab hbc⟩

instance {α : Type} : IsTotal (String × α) (fun p q => itemLe p q) :=
  ⟨fun p q => lexLe_total p.1.toList q.1.toList⟩

instance {α : Type} : IsTrans (String × α) (fun p q => itemLe p q) :=
  ⟨fun _ _ _ hab hbc => lexLe_trans _ _ _ hab hbc⟩

/-- C2 counterexample: the power operator emits Math.pow, not a bare
pow call, so the output text is not exactly pow(A, B). -/
theorem translate_pow_not_bare_pow :
    translate 3 (.BinOp (.Num 2) .Pow (.Num 10)) = .ok "Math.pow(2, 10)"
    ∧ ("Math.pow(2, 10)" : String) ≠ "pow(2, 10)" :=
  ⟨rfl, by decide⟩

/-- C2 (amended): for every binary-operator node whose operator is the
power operator, with translated operands A and B, the output text is
exactly Math.pow(A, B), with operand order preserved. -/
theorem translate_pow_math_pow (fuel : Nat) (left right : Node) (A B : String)
    (hl : translate fuel left = .ok A) (hr : translate fuel right = .ok B) :
    translate (fuel + 1) (.BinOp left .Pow right) =
      .ok ("Math.pow(" ++ A ++ ", " ++ B ++ ")") := by
  rw [translate_succ]
  show translate_bin_op (translate fuel) left .Pow right = _
  simp only [translate_bin_op, hl, ok_bind, hr]
  rfl

/-- Witness for C2 at a concrete input. -/
theorem translate_pow_math_pow_witness :
    translate 2 (.BinOp (.Num 2) .Pow (.Num 10)) = .ok "Math.pow(2, 10)" :=
  translate_pow_math_pow 1 (.Num 2) (.Num 10) "2" "10" rfl rfl

/-- C3: statement bodies are joined by a single newline, and this also
holds at the program root, because translate_body never reads its
line_separator argument: the blank-line separator passed by
translate_module has no effect. The concrete module shows the single
newline in the output. -/
theorem translate_module_joins_single_newline :
    translate 4 (.Module [.Assign [.Name "a"] (.Num 1), .Assign [.Name "b"] (.Num 2)]) =
      .ok "a = 1;\nb = 2;"
    ∧ ∀ (tr : Node → Except Err String) (body : List Node) (sep1 sep2 : String),
        translate_body tr body sep1 = translate_body tr body sep2 :=
  ⟨rfl, fun _ _ _ _ => rfl⟩

/-- C4: a numeric-literal node carrying the value n is emitted as the
textual representation of n, unchanged. -/
theorem translate_num_verbatim (fuel : Nat) (n : Int) :
    translate (fuel + 1) (.Num n) = .ok (toString n) := rfl

/-- C9: translation is deterministic: the translator is a pure function
of the input tree, so two invocations on the same tree yield identical
output. -/
theorem translate_deterministic (fuel : Nat) (tree : Node) :
    translate fuel tree = translate fuel tree := rfl

/-- C10: a boolean-operator node with two or more operand values emits
only the first two operand values in the two-operand parenthesized
form; any further operand values are dropped without being translated
and without an error. -/
theorem translate_bool_op_first_two (fuel : Nat) (op : BoolOpKind) (v0 v1 : Node)
    (t0 t1 : String) (h0 : translate fuel v0 = .ok t0)
    (h1 : translate fuel v1 = .ok t1) :
    ∀ rest : List Node,
      translate (fuel + 1) (.BoolOp op (v0 :: v1 :: rest)) =
        .ok ("(" ++ t0 ++ " " ++ bool_op_sym op ++ " " ++ t1 ++ ")") := by
  intro rest
  rw [translate_succ]
  show translate_bool_op (translate fuel) op (v0 :: v1 :: rest) = _
  simp only [translate_bool_op, h0, ok_bind, h1]
  rfl

/-- Witness for C10 at a concrete input: the third operand would abort
the translation if it were translated, yet it is silently dropped. -/
theorem translate_bool_op_first_two_witness :
    translate 2 (.BoolOp .And
      [.Num 1, .Num 2, .Compare (.Num 1) [.Lt, .Lt] [.Num 2, .Num 3]]) =
      .ok "(1 && 2)" :=
  translate_bool_op_first_two 1 .And (.Num 1) (.Num 2) "1" "2" rfl rfl
    [.Compare (.Num 1) [.Lt, .Lt] [.Num 2, .Num 3]]

/-- C7: a comparison node with more than one operator or more than one
comparator fails with the assertion error of translate_compare and
produces no output. -/
theorem translate_compare_chained (fuel : Nat) (left : Node)
    (ops : List CmpOpKind) (comparators : List Node)
    (h : 1 < ops.length ∨ 1 < comparators.length) :
    translate (fuel + 1) (.Compare left ops comparators) =
      .error (.AssertionError "Cannot have multiple comparison") := by
  rw [translate_succ]
  show translate_compare (translate fuel) left ops comparators = _
  rcases ops with _ | ⟨o, os⟩
  · rfl
  · rcases os with _ | ⟨o2, os⟩
    · rcases comparators with _ | ⟨c, cs⟩
      · rfl
      · rcases cs with _ | ⟨c2, cs⟩
        · simp at h
        · rfl
    · rfl

/-- Witness for C7 at the chained comparison representing 1 < x < 2. -/
theorem translate_compare_chained_witness :
    translate 1 (.Compare (.Num 1) [.Lt, .Lt] [.Name "x", .Num 2]) =
      .error (.AssertionError "Cannot have multiple comparison") :=
  translate_compare_chained 0 (.Num 1) [.Lt, .Lt] [.Name "x", .Num 2]
    (Or.inl (by decide))

/-- C6: a tuple-pattern target with a tuple value of different arity
fails with the tuple-length semantic error, and a tuple-pattern target
with a non-tuple value fails with the non-tuple semantic error; in both
cases no output is produced. -/
theorem translate_assign_tuple_mismatch (fuel : Nat) (ts vs : List Node)
    (v : Node) (hlen : ts.length ≠ vs.length) (hv : ∀ elts, v ≠ .Tuple elts) :
    translate (fuel + 1) (.Assign [.Tuple ts] (.Tuple vs)) =
      .error (.CompileError "Assigning one tuple to another of different length.")
    ∧ translate (fuel + 1) (.Assign [.Tuple ts] v) =
      .error (.CompileError "Assigning a non-tuple to a tuple.") := by
  constructor
  · rw [translate_succ]
    show translate_assign (translate fuel) [.Tuple ts] (.Tuple vs) = _
    simp only [translate_assign, assignStatements, if_pos hlen, error_bind]
  · rw [translate_succ]
    show translate_assign (translate fuel) [.Tuple ts] v = _
    cases v with
    | Tuple elts => exact absurd rfl (hv elts)
    | Module body => rfl
    | FunctionDef name args body => rfl
    | Return value => rfl
    | Name id => rfl
    | ClassDef name body => rfl
    | Assign targets value => rfl
    | Attribute value attr => rfl
    | Num n => rfl
    | BoolOp op values => rfl
    | BinOp l op r => rfl
    | Compare l ops comps => rfl
    | UnaryOp op operand => rfl
    | Lambda args body => rfl
    | Call func args => rfl
    | If test body orelse => rfl
    | IfExp test body orelse => rfl
    | Expr value => rfl

/-- Witness for C6: target arity 2 against value arity 3, and against a
numeric value. -/
theorem translate_assign_tuple_mismatch_witness :
    translate 1 (.Assign [.Tuple [.Name "a", .Name "b"]]
        (.Tuple [.Num 1, .Num 2, .Num 3])) =
      .error (.CompileError "Assigning one tuple to another of different length.")
    ∧ translate 1 (.Assign [.Tuple [.Name "a", .Name "b"]] (.Num 7)) =
      .error (.CompileError "Assigning a non-tuple to a tuple.") :=
  translate_assign_tuple_mismatch 0 [.Name "a", .Name "b"]
    [.Num 1, .Num 2, .Num 3] (.Num 7) (by decide)
    (fun _ h => Node.noConfusion h)

/-- Pairwise tuple assignment agrees with zipping the element
translations: shared helper for the tuple-to-tuple assignment claim. -/
theorem tupleAssignStatements_eq_zipWith (tr : Node → Except Err String) :
    ∀ (ts vs : List Node) (tTexts vTexts : List String),
      translateList tr ts = .ok tTexts → translateList tr vs = .ok vTexts →
      tupleAssignStatements tr ts vs =
        .ok (List.zipWith (fun tS vS => tS ++ " = " ++ vS) tTexts vTexts) := by
  intro ts
  induction ts with
  | nil =>
    intro vs tTexts vTexts hts hvs
    simp only [translateList] at hts
    cases hts
    rfl
  | cons t ts ih =>
    intro vs tTexts vTexts hts hvs
    simp only [translateList] at hts
    cases ht : tr t with
    | error e => rw [ht, error_bind] at hts; cases hts
    | ok tS =>
      rw [ht, ok_bind] at hts
      cases hrest : translateList tr ts with
      | error e => rw [hrest, error_bind] at hts; cases hts
      | ok tRest =>
        rw [hrest, ok_bind] at hts
        cases hts
        cases vs with
        | nil =>
          simp only [translateList] at hvs
          cases hvs
          rfl
        | cons v vs =>
          simp only [translateList] at hvs
          cases hv : tr v with
          | error e => rw [hv, error_bind] at hvs; cases hvs
          | ok vS =>
            rw [hv, ok_bind] at hvs
            cases hvrest : translateList tr vs with
            | error e => rw [hvrest, error_bind] at hvs; cases hvs
            | ok vRest =>
              rw [hvrest, ok_bind] at hvs
              cases hvs
              simp only [tupleAssignStatements, hv, ok_bind, ht,
                ih vs tRest vRest hrest hvrest, List.zipWith]
              rfl

/-- C5: an assignment whose single target is a tuple pattern and whose
value is a tuple literal of the same arity emits the pairwise
assignments of target element to value element, in index order, joined
by a semicolon and newline. -/
theorem translate_assign_tuple_tuple (fuel : Nat) (ts vs : List Node)
    (tTexts vTexts : List String) (hlen : ts.length = vs.length)
    (hts : translateList (translate fuel) ts = .ok tTexts)
    (hvs : translateList (translate fuel) vs = .ok vTexts) :
    translate (fuel + 1) (.Assign [.Tuple ts] (.Tuple vs)) =
      .ok (String.intercalate ";\n"
        (List.zipWith (fun tS vS => tS ++ " = " ++ vS) tTexts vTexts)) := by
  rw [translate_succ]
  show translate_assign (translate fuel) [.Tuple ts] (.Tuple vs) = _
  have hz := tupleAssignStatements_eq_zipWith (translate fuel) ts vs tTexts vTexts hts hvs
  simp only [translate_assign, assignStatements, hlen, ne_eq, not_true_eq_false,
    if_false, hz, ok_bind, pure_eq_ok, List.append_nil]

/-- Witness for C5 at the specified input: (a, b) = (1, 2). -/
theorem translate_assign_tuple_tuple_witness :
    translate 2 (.Assign [.Tuple [.Name "a", .Name "b"]]
        (.Tuple [.Num 1, .Num 2])) =
      .ok "a = 1;\nb = 2" :=
  translate_assign_tuple_tuple 1 [.Name "a", .Name "b"] [.Num 1, .Num 2]
    ["a", "b"] ["1", "2"] rfl rfl rfl

/-- C8 counterexample: in instance-method mode a first parameter that is
not named self is dropped from the parameter list, but the body
reference to it is emitted verbatim, not rewritten to this. -/
theorem instance_method_param_not_rewritten :
    translate_function (translate 5) "f" ["me"] [.Return (.Name "me")] true =
      .ok "function () \x7b return me; \x7d"
    ∧ ("function () \x7b return me; \x7d" : String) ≠
        "function () \x7b return this; \x7d" :=
  ⟨rfl, by decide⟩

/-- C8 (amended): in instance-method mode with N parameters the emitted
parameter list consists of exactly the last N minus 1 parameters in
order, and the Name rule rewrites exactly the identifier self to the
instance-reference keyword, so a body reference to the dropped first
parameter is rewritten precisely when that parameter is named self. -/
theorem translate_function_instance_method (fuel : Nat) (name a0 : String)
    (rest : List String) (fbody : List Node) (body_def : String)
    (hb : translate_body (translate fuel) fbody "\n" = .ok body_def) :
    translate_function (translate fuel) name (a0 :: rest) fbody true =
      .ok ("function (" ++ String.intercalate ", " rest ++ ") \x7b " ++
        body_def ++ " \x7d")
    ∧ translate_name "self" = "this"
    ∧ ∀ id, id ≠ "self" → translate_name id = id := by
  refine ⟨?_, rfl, fun id h => ?_⟩
  · simp only [translate_function, if_pos, List.tail_cons, hb, ok_bind]
    rfl
  · simp only [translate_name, if_neg h]

/-- Witness for C8 at a concrete instance method with parameters self
and x whose body returns self. -/
theorem translate_function_instance_method_witness :
    translate_function (translate 2) "f" ["self", "x"]
        [.Return (.Name "self")] true =
      .ok "function (x) \x7b return this; \x7d"
    ∧ translate_name "self" = "this"
    ∧ ∀ id, id ≠ "self" → translate_name id = id :=
  translate_function_instance_method 2 "f" "self" ["x"]
    [.Return (.Name "self")] "return this;" rfl

/-- C1: a class declaration with no initializer member emits the empty
function as constructor, and the prototype-table entries are the
assignment-derived entries followed by the function-derived entries,
each group generated from a key-sorted permutation of the collected
members, in the prototype-assignment form. -/
theorem translate_class_no_init (fuel : Nat) (name : String) (cbody : List Node)
    (functions : List (String × (List String × List Node)))
    (assigns : List (String × Node)) (aEntries fEntries : List String)
    (hc : collectClass [] [] cbody = .ok (functions, assigns))
    (hni : List.lookup "__init__" functions = none)
    (ha : classAssignEntries (translate fuel) (sortItems assigns) = .ok aEntries)
    (hf : classFuncEntries (translate fuel) (sortItems functions) = .ok fEntries) :
    translate (fuel + 1) (.ClassDef name cbody) =
      .ok ("var " ++ name ++ " = " ++ "function () \x7b\x7d" ++ ";\n" ++ name ++
        ".prototype = \x7b " ++ String.intercalate ",\n" (aEntries ++ fEntries) ++
        " \x7d")
    ∧ List.Sorted (fun p q => itemLe p q) (sortItems assigns)
    ∧ List.Sorted (fun p q => itemLe p q) (sortItems functions)
    ∧ List.Perm (sortItems assigns) assigns
    ∧ List.Perm (sortItems functions) functions := by
  refine ⟨?_, List.sorted_insertionSort _ _, List.sorted_insertionSort _ _,
    List.perm_insertionSort _ _, List.perm_insertionSort _ _⟩
  rw [translate_succ]
  show translate_class (translate fuel) name cbody = _
  simp only [translate_class, hc, ok_bind, hni, ha, hf, pure_eq_ok]

/-- Witness for C1 at the specified class: members b (a function), a
(assigned 1) and z (assigned 2), no initializer; entries come out in
the order a, z, b. -/
theorem translate_class_no_init_witness :
    translate 12 (.ClassDef "C"
        [.FunctionDef "b" ["self"] [.Return (.Num 1)],
         .Assign [.Name "a"] (.Num 1),
         .Assign [.Name "z"] (.Num 2)]) =
      .ok "var C = function () \x7b\x7d;\nC.prototype = \x7b \x27a\x27: 1,\n\x27z\x27: 2,\n\x27b\x27: function () \x7b return 1; \x7d \x7d"
    ∧ List.Sorted (fun p q => itemLe p q)
        (sortItems [("a", Node.Num 1), ("z", Node.Num 2)])
    ∧ List.Sorted (fun p q => itemLe p q)
        (sortItems [("b", (["self"], [Node.Return (Node.Num 1)]))])
    ∧ List.Perm (sortItems [("a", Node.Num 1), ("z", Node.Num 2)])
        [("a", Node.Num 1), ("z", Node.Num 2)]
    ∧ List.Perm (sortItems [("b", (["self"], [Node.Return (Node.Num 1)]))])
        [("b", (["self"], [Node.Return (Node.Num 1)]))] :=
  translate_class_no_init 11 "C"
    [.FunctionDef "b" ["self"] [.Return (.Num 1)],
     .Assign [.Name "a"] (.Num 1),
     .Assign [.Name "z"] (.Num 2)]
    [("b", (["self"], [Node.Return (Node.Num 1)]))]
    [("a", Node.Num 1), ("z", Node.Num 2)]
    ["\x27a\x27: 1", "\x27z\x27: 2"]
    ["\x27b\x27: function () \x7b return 1; \x7d"]
    (by rfl) (by rfl) (by rfl) (by rfl)

end Kugelblitz
